import Mathlib

/-!
Verification of the `porm` mini ORM (src/porm.py) against its specification.

The Python module is shallowly embedded as follows.

* Python values that can appear as record attributes or database cells are
  modelled by `PyVal` (integers, strings, `None`, and `Pormo` instances).
* A `Pormo` instance (src/porm.py line 31) is a dynamically attributed
  object; it is modelled as an association list of attribute name / value
  pairs with Python `setattr` / `getattr` semantics (`setAttr`, `getAttr`).
* The sqlite3 connection is an external collaborator of the module
  (the module only requires "objects which look and behave like the
  sqlite3.Connection and sqlite3.Cursor objects", line 24).  It is modelled
  from the spec's EXTERNAL INTERFACES section: a database (`DB`) is a list
  of named tables; a table holds its column names, a per-column
  integer-affinity flag, and its rows.  `execSelect`, `execUpdate` and
  `execInsert` give the semantics of the exact statement forms the module
  emits.
* Fallible Python code returns `Except PyErr`; `PyErr` enumerates the
  runtime errors reachable in the embedded fragment (`TypeError` from
  string formatting and `str.join`, `AttributeError` on missing
  attributes, `IndexError` on short rows, and the storage engine errors).
* The mutual recursion between `query` and `orm` (lines 39-63 and 113-165)
  need not terminate (circular foreign keys), so the embedding uses an
  explicit fuel parameter: `queryF fuel` returns `.error .outOfFuel`
  exactly when the recursion nests deeper than `fuel`.
-/

/-- Runtime errors reachable in the embedded fragment of the program. -/
inductive PyErr where
  | outOfFuel
  | typeError
  | attributeError
  | indexError
  | noSuchTable
  | noSuchColumn
  | sqlError
  deriving DecidableEq, Repr

/-- Python values appearing as record attributes or database cells:
integers, strings, `None`, and nested `Pormo` instances (an instance is an
association list of attribute name / value pairs). -/
inductive PyVal where
  | vint : Int → PyVal
  | vstr : String → PyVal
  | vnone : PyVal
  | vrec : List (String × PyVal) → PyVal

/-- A `Pormo` instance (src/porm.py line 31): a bag of dynamically assigned
attributes, in assignment order. -/
abbrev Pormo := List (String × PyVal)

/-- Python `getattr(obj, n)`, returning `none` when the attribute is absent
(Python would raise `AttributeError`). -/
def getAttr : Pormo → String → Option PyVal
  | [], _ => none
  | (a, w) :: rest, n => if n = a then some w else getAttr rest n

/-- Python `setattr(obj, n, v)`: overwrite in place if present (dicts keep
insertion order), else append. -/
def setAttr : Pormo → String → PyVal → Pormo
  | [], n, v => [(n, v)]
  | (a, w) :: rest, n, v =>
    if n = a then (n, v) :: rest else (a, w) :: setAttr rest n v

/-- Python equality test `v == i` against an integer (only an `int` with the
same value compares equal in the embedded fragment). -/
def pvEqInt : PyVal → Int → Bool
  | .vint m, n => m == n
  | _, _ => false

/-- Python `v == 0` as used on line 76 (`instance.id == 0`). -/
def pyEq0 : PyVal → Bool
  | .vint n => n == 0
  | _ => false

/-- Python `'%i' % v` composed with the storage engine reading the decimal
literal back: succeeds with the integer for an `int`, raises `TypeError`
for any other value (this is exactly CPython's behaviour of the `%i`
format, used on lines 81, 99 and 154). -/
def pyToIntFmt : PyVal → Except PyErr Int
  | .vint n => .ok n
  | _ => .error .typeError

/-- Python `'%s' % v`: total string conversion (an instance renders as an
address-dependent placeholder). -/
def pyFmtS : PyVal → String
  | .vint n => toString n
  | .vstr s => s
  | .vnone => "None"
  | .vrec _ => "<porm.Pormo instance>"

/-- One item of Python `','.join(values)`: `str.join` raises `TypeError`
on any non-string item. -/
def asStr : PyVal → Except PyErr String
  | .vstr s => .ok s
  | _ => .error .typeError

/-- Error-propagating map over a list (left-to-right, first error wins),
mirroring how Python loops raise at the first bad element. -/
def mapE (f : α → Except PyErr β) : List α → Except PyErr (List β)
  | [] => .ok []
  | a :: as =>
    match f a with
    | .error e => .error e
    | .ok b =>
      match mapE f as with
      | .error e => .error e
      | .ok bs => .ok (b :: bs)

/-- Python `sep.join(values)` over a list of `PyVal`s: `TypeError` on any
non-string item, else the items interleaved with the separator. -/
def pyJoin (sep : String) (vs : List PyVal) : Except PyErr String :=
  match mapE asStr vs with
  | .error e => .error e
  | .ok ss => .ok (String.intercalate sep ss)

/-- Is the value a Python `str`? -/
def isStrVal : PyVal → Bool
  | .vstr _ => true
  | _ => false

/-- Does the string contain a single-quote character (code point 39)? -/
def hasQuoteStr (s : String) : Bool :=
  s.data.any (fun c => c.toNat == 39)

/-- Does the rendered text `pyFmtS v` contain a single-quote character?
By cases on the value: the decimal rendering of an integer, the text
`None`, and the instance placeholder never contain a quote; only a string
value can. -/
def pvHasQuote : PyVal → Bool
  | .vstr s => hasQuoteStr s
  | _ => false

/-- A database table, modelled from the spec's EXTERNAL INTERFACES section:
column names (in order), a per-column flag telling whether the column's
declared type gives it sqlite integer affinity, and the rows.  A row is a
list of cell values aligned with `cols`; cells are never `vrec`. -/
structure Table where
  cols : List String
  ints : List Bool
  rows : List (List PyVal)

/-- A database: named tables, as required from the host environment. -/
abbrev DB := List (String × Table)

/-- Look a table up by name (first match). -/
def lookupTable : DB → String → Option Table
  | [], _ => none
  | (n, t) :: rest, name => if name = n then some t else lookupTable rest name

/-- Index of the first column with the given name. -/
def colIdx : List String → String → Option Nat
  | [], _ => none
  | c :: cs, n => if n = c then some 0 else (colIdx cs n).map (· + 1)

/-- Does the row's `j`-th cell hold the integer `i`?  (SQL `id = i`:
`NULL` and text never compare equal to an integer.) -/
def rowMatchId (r : List PyVal) (j : Nat) (i : Int) : Bool :=
  match r[j]? with
  | some v => pvEqInt v i
  | none => false

/-- The where clauses the module ever sends: none (`where = ''`,
line 58) or `id = <int>` (lines 81 and 154). -/
inductive Where where
  | all
  | idEq : Int → Where

/-- Rows returned by `SELECT * FROM t [WHERE ...]`.  Filtering on a missing
`id` column is a storage-engine error. -/
def selectRows (t : Table) : Where → Except PyErr (List (List PyVal))
  | .all => .ok t.rows
  | .idEq n =>
    match colIdx t.cols "id" with
    | none => .error .noSuchColumn
    | some j => .ok (t.rows.filter (fun r => rowMatchId r j n))

/-- Modelled from the spec: `db.execute('select * from <table> ...')`
followed by `fetchall()` and reading `cursor.description` — returns the
matching rows together with the column names, or the engine's error for a
missing table. -/
def execSelect (db : DB) (table : String) (w : Where) :
    Except PyErr (List (List PyVal) × List String) :=
  match lookupTable db table with
  | none => .error .noSuchTable
  | some t =>
    match selectRows t w with
    | .error e => .error e
    | .ok rows => .ok (rows, t.cols)

/-- Modelled from the spec: the effect of storing the quoted literal
`'<v>'` (the text `pyFmtS v`) into a column.  Under sqlite integer
affinity a decimal literal converts back to the integer it denotes (so an
integer value round-trips); under text affinity the literal is stored as
text.  `None` always becomes the four-character text `None`, because
`'%s' % None` renders it so before quoting. -/
def storeVal (intAff : Bool) (v : PyVal) : PyVal :=
  match v with
  | .vint n => if intAff then .vint n else .vstr (toString n)
  | .vstr s =>
    if intAff then
      match s.toInt? with
      | some n => .vint n
      | none => .vstr s
    else .vstr s
  | .vnone => .vstr "None"
  | .vrec r => .vstr (pyFmtS (.vrec r))

/-- Apply the `SET f='v', ...` assignments of an UPDATE to one row.
The values are interpolated between single quotes with no escaping
(line 98), so a value whose rendered text contains a quote character
corrupts the generated statement; per the spec's error-handling design
this surfaces as a storage-engine error rather than a clean update.
An assignment to a nonexistent column is likewise a storage-engine
error. -/
def applyAssigns (cols : List String) (ints : List Bool) :
    List (String × PyVal) → List PyVal → Except PyErr (List PyVal)
  | [], r => .ok r
  | (f, v) :: rest, r =>
    if pvHasQuote v then .error .sqlError
    else
      match colIdx cols f with
      | none => .error .noSuchColumn
      | some j => applyAssigns cols ints rest (r.set j (storeVal (ints.getD j false) v))

/-- Replace the first table with the given name. -/
def replaceTable : DB → String → Table → DB
  | [], _, _ => []
  | (n, t) :: rest, name, t2 =>
    if name = n then (n, t2) :: rest else (n, t) :: replaceTable rest name t2

/-- Modelled from the spec: the effect of
`UPDATE <table> SET <f1>='<v1>', ... WHERE id=<i>` — every row whose `id`
column equals `i` gets each assigned column overwritten by the stored form
of the corresponding literal.  A value whose rendered text embeds a quote
character corrupts the statement (no escaping is performed) and the
engine raises instead of updating. -/
def execUpdate (db : DB) (table : String) (assigns : List (String × PyVal))
    (i : Int) : Except PyErr DB :=
  match lookupTable db table with
  | none => .error .noSuchTable
  | some t =>
    match colIdx t.cols "id" with
    | none => .error .noSuchColumn
    | some j =>
      match mapE (fun r => if rowMatchId r j i then applyAssigns t.cols t.ints assigns r
                           else .ok r) t.rows with
      | .error e => .error e
      | .ok rows2 => .ok (replaceTable db table { t with rows := rows2 })

/-- Modelled from the spec: the effect of
`INSERT INTO <table> (<fields>) VALUES (<values>)` — append one row whose
named columns carry the given values (other columns `NULL`).  The save
path can never actually reach a successful insert (see the claims about
`','.join`), so only totality matters here. -/
def execInsert (db : DB) (table : String) (fields : List String)
    (values : List PyVal) : Except PyErr DB :=
  match lookupTable db table with
  | none => .error .noSuchTable
  | some t =>
    let newRow := t.cols.map (fun c =>
      match (fields.zip values).lookup c with
      | some v => v
      | none => .vnone)
    .ok (replaceTable db table { t with rows := t.rows ++ [newRow] })

/-- The foreign-key trigger test of line 152:
`fkeylookup and len(name) > 3 and name[-3:] == '_id'`. -/
def isFkCol (fk : Bool) (name : String) : Bool :=
  fk && decide (name.length > 3) && (name.takeRight 3 == "_id")

/-- The per-row attribute loop of `orm` (lines 146-161), parametrised by
the nested-query callback `q` (which `orm` instantiates with
`query(db, name[:-3], 'id = %i' % val)`, foreign-key lookup left enabled).
For a triggering column the raw value is formatted with `%i` (a
`TypeError` for non-integers), the referenced table is queried, and the
attribute is set to the first returned object, or to `None` when none is
returned; otherwise the raw value is assigned unchanged.  A row shorter
than the column list raises `IndexError` (`row[i]`). -/
def ormRowAux (q : String → Int → Except PyErr (List Pormo)) (obj : Pormo) :
    List String → List PyVal → Bool → Except PyErr Pormo
  | [], _, _ => .ok obj
  | _ :: _, [], _ => .error .indexError
  | n :: ns, v :: vs, fk =>
    if isFkCol fk n then
      match pyToIntFmt v with
      | .error e => .error e
      | .ok k =>
        match q (n.dropRight 3) k with
        | .error e => .error e
        | .ok [] => ormRowAux q (setAttr obj n .vnone) ns vs fk
        | .ok (x :: _) => ormRowAux q (setAttr obj n (.vrec x)) ns vs fk
    else
      ormRowAux q (setAttr obj n v) ns vs fk

/-- The row loop of `orm` (lines 143-163), parametrised like
`ormRowAux`: map every fetched row to a fresh object, in order. -/
def ormAux (q : String → Int → Except PyErr (List Pormo)) :
    List (List PyVal) → List String → Bool → Except PyErr (List Pormo)
  | [], _, _ => .ok []
  | r :: rs, names, fk =>
    match ormRowAux q [] names r fk with
    | .error e => .error e
    | .ok o =>
      match ormAux q rs names fk with
      | .error e => .error e
      | .ok os => .ok (o :: os)

/-- `query(db, table, where, fkeylookup)` (lines 39-63): run the SELECT and
hand rows plus column names to `orm`.  `fuel` bounds the depth of the
mutual `query`/`orm` recursion; `.error .outOfFuel` is returned exactly
when the program would still be recursing at that depth. -/
def queryF : Nat → DB → String → Where → Bool → Except PyErr (List Pormo)
  | 0, _, _, _, _ => .error .outOfFuel
  | fuel + 1, db, table, w, fk =>
    match execSelect db table w with
    | .error e => .error e
    | .ok (rows, names) =>
      ormAux (fun tb k => queryF fuel db tb (.idEq k) true) rows names fk

/-- `orm(db, table, cursor, fkeylookup)` (lines 113-165); the cursor is
its fetched rows plus its column names, and `table` is unused, exactly as
in the source.  Nested lookups run `query` with the given fuel. -/
def orm (fuel : Nat) (db : DB) (table : String) (rows : List (List PyVal))
    (names : List String) (fk : Bool) : Except PyErr (List Pormo) :=
  ormAux (fun tb k => queryF fuel db tb (.idEq k) true) rows names fk

/-- One row of `orm`, with the same nested-query callback as `orm`. -/
def ormRowF (fuel : Nat) (db : DB) (obj : Pormo) (names : List String)
    (row : List PyVal) (fk : Bool) : Except PyErr Pormo :=
  ormRowAux (fun tb k => queryF fuel db tb (.idEq k) true) obj names row fk

/-- The foreign-key reference targets named by a table's columns under the
`<ref>_id` convention (the tables `orm` would recurse into). -/
def fkTargets (t : Table) : List String :=
  (t.cols.filter (fun c => isFkCol true c)).map (fun c => c.dropRight 3)

/-- Code-point comparison of strings as Python's `sorted` orders them. -/
def charListLe : List Char → List Char → Bool
  | [], _ => true
  | _ :: _, [] => false
  | a :: as, b :: bs =>
    if a.toNat < b.toNat then true
    else if b.toNat < a.toNat then false
    else charListLe as bs

/-- The ordering `dir(instance)` sorts attribute names by. -/
def dirLe (a b : String) : Prop := charListLe a.data b.data = true

instance : DecidableRel dirLe := fun _ _ => inferInstanceAs (Decidable (_ = true))

/-- Line 85: `[f for f in dir(instance) if f[0:2] != '__']` — the public
attribute names, sorted (as `dir` sorts), double-underscore names
filtered out. -/
def saveFields (inst : Pormo) : List String :=
  (List.insertionSort dirLe (inst.map Prod.fst).dedup).filter
    (fun f => !(f.take 2 == "__"))

/-- Lines 89-91: replace a foreign-key object by its `id` attribute
(`values[i] = values[i].id`; a missing `id` raises `AttributeError`);
other values pass through. -/
def flattenVal : PyVal → Except PyErr PyVal
  | .vrec r =>
    match getAttr r "id" with
    | none => .error .attributeError
    | some v => .ok v
  | v => .ok v

/-- The flattening loop over all collected values. -/
def flattenVals (vs : List PyVal) : Except PyErr (List PyVal) :=
  mapE flattenVal vs

/-- Line 98: `','.join(['%s=\x27%s\x27' % e for e in zip(fields, values)])`. -/
def updateExprs (fields : List String) (values : List PyVal) : String :=
  String.intercalate ","
    ((fields.zip values).map (fun p => p.1 ++ "=\x27" ++ pyFmtS p.2 ++ "\x27"))

/-- Line 99: the UPDATE statement text. -/
def updateStmtOf (table : String) (fields : List String) (values : List PyVal)
    (i : Int) : String :=
  "update " ++ table ++ " set " ++ updateExprs fields values ++
    " where id=" ++ toString i

/-- Lines 105-108: the INSERT statement text.  Note `','.join(values)`
raises `TypeError` whenever any value is not a string, and string values
are joined bare, without quoting. -/
def insertStmtOf (table : String) (fields : List String)
    (values : List PyVal) : Except PyErr String :=
  match pyJoin "," values with
  | .error e => .error e
  | .ok vs =>
    .ok ("insert into " ++ table ++ " (" ++ String.intercalate "," fields ++
      ") values (" ++ vs ++ ")")

/-- Lines 76-83: decide whether the instance already exists.  `id == 0`
means new without touching the database; otherwise the probe
`select * from <table> where id = %i` runs and existence is a non-empty
fetch (`len(exists) is not 0`, which CPython evaluates like `!= 0`). -/
def saveExists (db : DB) (table : String) (idv : PyVal) : Except PyErr Bool :=
  if pyEq0 idv then .ok false
  else
    match pyToIntFmt idv with
    | .error e => .error e
    | .ok i =>
      match execSelect db table (.idEq i) with
      | .error e => .error e
      | .ok rn => .ok (!rn.1.isEmpty)

/-- Which kind of statement `save` executed. -/
inductive SaveKind where
  | updated
  | inserted
  deriving DecidableEq, Repr

/-- `save(db, table, instance)` (lines 65-111).  Reading `instance.id` on a
record without an `id` attribute raises `AttributeError`; then the
existence check, field collection, foreign-key flattening, and the UPDATE
or INSERT branch, each followed by `db.commit()` (a no-op on the embedded
state, which only ever holds committed data). -/
def save (db : DB) (table : String) (inst : Pormo) :
    Except PyErr (DB × SaveKind) :=
  match getAttr inst "id" with
  | none => .error .attributeError
  | some idv =>
    match saveExists db table idv with
    | .error e => .error e
    | .ok ex =>
      let fields := saveFields inst
      match flattenVals (fields.map (fun f => (getAttr inst f).getD .vnone)) with
      | .error e => .error e
      | .ok values =>
        if ex then
          match pyToIntFmt idv with
          | .error e => .error e
          | .ok i =>
            let _stmt := updateStmtOf table fields values i
            match execUpdate db table (fields.zip values) i with
            | .error e => .error e
            | .ok db2 => .ok (db2, .updated)
        else
          match insertStmtOf table fields values with
          | .error e => .error e
          | .ok _stmt =>
            match execInsert db table fields values with
            | .error e => .error e
            | .ok db2 => .ok (db2, .inserted)

/-! ## Helper lemmas -/

/-- `mapE` hits every index: the output at `j` is `f` of the input at `j`. -/
theorem mapE_get (f : α → Except PyErr β) :
    ∀ (l : List α) (l2 : List β) (j : Nat) (a : α),
      mapE f l = .ok l2 → l[j]? = some a → ∃ b, f a = .ok b ∧ l2[j]? = some b := by
  intro l
  induction l with
  | nil => intro l2 j a _ hj; simp at hj
  | cons x xs ih =>
    intro l2 j a hm hj
    rw [mapE] at hm
    cases hfx : f x with
    | error e => rw [hfx] at hm; cases hm
    | ok b =>
      rw [hfx] at hm
      cases hms : mapE f xs with
      | error e => rw [hms] at hm; cases hm
      | ok bs =>
        rw [hms] at hm
        cases hm
        cases j with
        | zero => simp at hj; subst hj; exact ⟨b, hfx, by simp⟩
        | succ j2 =>
          simp at hj
          obtain ⟨c, hc, hc2⟩ := ih bs j2 a hms hj
          exact ⟨c, hc, by simpa using hc2⟩

/-- If every element maps to itself, `mapE` is the identity. -/
theorem mapE_ok_self (f : α → Except PyErr α) :
    ∀ (l : List α), (∀ a ∈ l, f a = .ok a) → mapE f l = .ok l := by
  intro l
  induction l with
  | nil => simp [mapE]
  | cons x xs ih =>
    intro h
    rw [mapE, h x (by simp), ih (fun a ha => h a (by simp [ha]))]

/-- Joining a list of strings succeeds and interleaves the separator. -/
theorem mapE_asStr_strings (ss : List String) :
    mapE asStr (ss.map PyVal.vstr) = .ok ss := by
  induction ss with
  | nil => simp [mapE]
  | cons s rest ih => simp [mapE, asStr, ih]

/-- Joining any list containing a non-string raises `TypeError`. -/
theorem mapE_asStr_err :
    ∀ (vs : List PyVal) (v : PyVal), v ∈ vs → isStrVal v = false →
      mapE asStr vs = .error .typeError := by
  intro vs
  induction vs with
  | nil => intro v hv; cases hv
  | cons a as ih =>
    intro v hv h
    rcases List.mem_cons.mp hv with rfl | hmem
    · cases v <;> simp [isStrVal] at h <;> simp [mapE, asStr]
    · cases a with
      | vstr s => simp [mapE, asStr, ih v hmem h]
      | vint n => simp [mapE, asStr]
      | vnone => simp [mapE, asStr]
      | vrec r => simp [mapE, asStr]

/-- The row loop returns one object per row: no row is dropped. -/
theorem ormAux_length (q : String → Int → Except PyErr (List Pormo)) :
    ∀ (rows : List (List PyVal)) (names : List String) (fk : Bool)
      (objs : List Pormo), ormAux q rows names fk = .ok objs →
      objs.length = rows.length := by
  intro rows
  induction rows with
  | nil => intro names fk objs h; rw [ormAux] at h; cases h; rfl
  | cons r rs ih =>
    intro names fk objs h
    rw [ormAux] at h
    cases h1 : ormRowAux q [] names r fk with
    | error e => rw [h1] at h; cases h
    | ok o =>
      rw [h1] at h
      cases h2 : ormAux q rs names fk with
      | error e => rw [h2] at h; cases h
      | ok os => rw [h2] at h; cases h; simp [ih names fk os h2]

/-- A found table is a member of the database. -/
theorem lookupTable_mem :
    ∀ (db : DB) (T : String) (t : Table),
      lookupTable db T = some t → (T, t) ∈ db := by
  intro db
  induction db with
  | nil => intro T t h; cases h
  | cons p rest ih =>
    intro T t h
    obtain ⟨n, t0⟩ := p
    rw [lookupTable] at h
    by_cases he : T = n
    · rw [if_pos he] at h; cases h; subst he; exact List.mem_cons_self _ _
    · rw [if_neg he] at h; exact List.mem_cons_of_mem _ (ih T t h)

/-- `selectRows` can only fail with the missing-column error. -/
theorem selectRows_error (t : Table) (w : Where) (e : PyErr)
    (h : selectRows t w = .error e) : e = .noSuchColumn := by
  cases w with
  | all => rw [selectRows] at h; cases h
  | idEq n =>
    rw [selectRows] at h
    cases hc : colIdx t.cols "id" with
    | none => rw [hc] at h; cases h; rfl
    | some j => rw [hc] at h; cases h

/-! ## Concrete databases used by several claims -/

/-- The spec's concrete scenario: `department(1, 'Eng')`, `people(5, 'Ann', 1)`. -/
def dbPeople : DB :=
  [("people", ⟨["id", "name", "department_id"], [true, false, true],
      [[.vint 5, .vstr "Ann", .vint 1]]⟩),
   ("department", ⟨["id", "name"], [true, false],
      [[.vint 1, .vstr "Eng"]]⟩)]

/-- The resolved department record of the scenario. -/
def depEng : Pormo := [("id", .vint 1), ("name", .vstr "Eng")]

/-- The resolved people record of the scenario. -/
def recAnn : Pormo :=
  [("id", .vint 5), ("name", .vstr "Ann"), ("department_id", .vrec depEng)]

/-- A table `t(id, name)` with no rows. -/
def dbEmptyT : DB := [("t", ⟨["id", "name"], [true, false], []⟩)]

/-- A table `t(id)` whose only row has id 7. -/
def dbOneT : DB := [("t", ⟨["id"], [true], [[.vint 7]]⟩)]

/-- An empty `department` table (for dangling-reference scenarios). -/
def dbDangling : DB := [("department", ⟨["id", "name"], [true, false], []⟩)]

/-! ## Claims -/

/-- Claim C2: with tables `people(id, name, department_id)` and
`department(id, name)`, rows `department(1, 'Eng')` and `people(5, 'Ann', 1)`,
`query(db, 'people', 'id = 5')` returns exactly one Record whose `id` is 5,
whose `name` is `'Ann'`, and whose `department_id` is a nested Record with
id 1 and name `'Eng'`. -/
theorem queryPeopleScenario :
    queryF 2 dbPeople "people" (.idEq 5) true = .ok [recAnn] ∧
    getAttr recAnn "id" = some (.vint 5) ∧
    getAttr recAnn "name" = some (.vstr "Ann") ∧
    getAttr recAnn "department_id" = some (.vrec depEng) ∧
    getAttr depEng "id" = some (.vint 1) ∧
    getAttr depEng "name" = some (.vstr "Eng") :=
  ⟨rfl, rfl, rfl, rfl, rfl, rfl⟩

/-- Claim C3 (code bug): branch selection of `save`.  With `id == 0` no
probe runs (on an empty database the probe would fail with the
missing-table error, yet we get the `TypeError` of the insert path's
`','.join`); with a nonzero id the probe does run (missing-table error on
the empty database); with a nonzero id matching no row the insert path is
taken but dies with `TypeError` inside `','.join(values)` before any
INSERT statement is built — contradicting the documented "issues an
INSERT" path; with a nonzero id matching a row an UPDATE is executed. -/
theorem saveBranchOutcomes :
    save [] "t" [("id", .vint 0)] = .error .typeError ∧
    save [] "t" [("id", .vint 7)] = .error .noSuchTable ∧
    save dbEmptyT "t" [("id", .vint 7)] = .error .typeError ∧
    save dbOneT "t" [("id", .vint 7)] = .ok (dbOneT, .updated) :=
  ⟨rfl, rfl, rfl, rfl⟩

/-- Claim C4 (code bug): saving a freshly constructed Record with `id == 0`
does not insert a row — it raises `TypeError`, because the insert path
joins the collected values with `','.join(values)` and `values` always
contains the integer id. -/
theorem saveFreshInsertRaises :
    save dbEmptyT "t" [("id", .vint 0), ("name", .vstr "Ann")] =
      .error .typeError := rfl

/-- Claim C5 counterexample: the insert path does not wrap values in
single quotes the way the update path does — a string value is joined
bare, and the resulting statement text contains no quote characters at
all, unlike the update statement built from the same field and value. -/
theorem insertValuesUnquoted :
    insertStmtOf "t" ["name"] [.vstr "Ann"] =
      .ok "insert into t (name) values (Ann)" ∧
    updateStmtOf "t" ["name"] [.vstr "Ann"] 5 =
      "update t set name=\x27Ann\x27 where id=5" ∧
    "insert into t (name) values (Ann)" ≠
      "insert into t (name) values (\x27Ann\x27)" :=
  ⟨rfl, rfl, by decide⟩

/-- Claim C5 as amended: the emitted insert statement is
`insert into <table> (<fields>) values (<values>)` with the values joined
bare — NOT quoted — when all values are strings, and `','.join` raises
`TypeError` as soon as any value is not a string. -/
theorem insertStmtShape :
    (∀ (table : String) (fields : List String) (svals : List String),
      insertStmtOf table fields (svals.map PyVal.vstr) =
        .ok ("insert into " ++ table ++ " (" ++ String.intercalate "," fields ++
          ") values (" ++ String.intercalate "," svals ++ ")")) ∧
    (∀ (table : String) (fields : List String) (values : List PyVal)
      (v : PyVal), v ∈ values → isStrVal v = false →
      insertStmtOf table fields values = .error .typeError) := by
  constructor
  · intro table fields svals
    rw [insertStmtOf, pyJoin, mapE_asStr_strings]
  · intro table fields values v hv h
    rw [insertStmtOf, pyJoin, mapE_asStr_err values v hv h]

/-- Witness for `insertStmtShape` at concrete inputs. -/
theorem insertStmtShapeWitness :
    insertStmtOf "t" ["a", "b"] [.vstr "x", .vstr "y"] =
      .ok "insert into t (a,b) values (x,y)" ∧
    insertStmtOf "t" ["a"] [.vint 0] = .error .typeError := by
  refine ⟨?_, ?_⟩
  · have h := insertStmtShape.1 "t" ["a", "b"] ["x", "y"]
    simpa using h
  · exact insertStmtShape.2 "t" ["a"] [.vint 0] (.vint 0) (by simp) rfl

/-- Claim C6: before building the statement, `save` replaces every value
that is itself a Record by that Record's `id` attribute: in the flattened
value list, the position of such a field holds exactly the nested id. -/
theorem saveFlattensForeignRecords (inst : Pormo) (f : String) (r : Pormo)
    (v : PyVal) (j : Nat) (vs : List PyVal)
    (hf : (saveFields inst)[j]? = some f)
    (ha : getAttr inst f = some (.vrec r))
    (hid : getAttr r "id" = some v)
    (hvs : flattenVals ((saveFields inst).map
        (fun g => (getAttr inst g).getD .vnone)) = .ok vs) :
    vs[j]? = some v := by
  have hm : ((saveFields inst).map
      (fun g => (getAttr inst g).getD .vnone))[j]? = some (.vrec r) := by
    simp [List.getElem?_map, hf, ha]
  obtain ⟨b, hb, hb2⟩ := mapE_get _ _ _ _ _ hvs hm
  rw [flattenVal, hid] at hb
  cases hb
  exact hb2

/-- Witness for `saveFlattensForeignRecords`: a record whose
`department_id` attribute is a nested record with id 1. -/
theorem saveFlattensForeignRecordsWitness :
    ([PyVal.vint 1, PyVal.vint 3] : List PyVal)[0]? = some (PyVal.vint 1) :=
  saveFlattensForeignRecords
    [("id", .vint 3), ("department_id", .vrec depEng)]
    "department_id" depEng (.vint 1) 0 [.vint 1, .vint 3] rfl rfl rfl rfl

/-- Claim C7: a foreign-key column whose value matches no row of the
referenced table resolves to the explicit `None` marker (the mapping of
the row continues with the attribute set to `None`), and the row loop
returns one object per fetched row, so no row is dropped. -/
theorem danglingFkYieldsNone (fuel : Nat) (db : DB) (obj : Pormo)
    (name : String) (ns : List String) (k : Int) (vs : List PyVal)
    (t : Table) (j : Nat)
    (hfk : isFkCol true name = true)
    (ht : lookupTable db (name.dropRight 3) = some t)
    (hj : colIdx t.cols "id" = some j)
    (hempty : t.rows.filter (fun r => rowMatchId r j k) = []) :
    (ormRowF (fuel + 1) db obj (name :: ns) (.vint k :: vs) true =
      ormRowF (fuel + 1) db (setAttr obj name .vnone) ns vs true) ∧
    (∀ (fuel2 : Nat) (db2 : DB) (tb : String) (rows : List (List PyVal))
      (names2 : List String) (fk2 : Bool) (objs : List Pormo),
      orm fuel2 db2 tb rows names2 fk2 = .ok objs →
      objs.length = rows.length) := by
  constructor
  · simp [ormRowF, ormRowAux, hfk, pyToIntFmt, queryF, execSelect, ht,
      selectRows, hj, hempty, ormAux]
  · intro fuel2 db2 tb rows names2 fk2 objs h
    exact ormAux_length _ rows names2 fk2 objs h

/-- Witness for `danglingFkYieldsNone`: a `department_id` of 9 with an
empty `department` table. -/
theorem danglingFkYieldsNoneWitness :
    (ormRowF 1 dbDangling [] ["department_id"] [.vint 9] true =
      ormRowF 1 dbDangling [("department_id", PyVal.vnone)] [] [] true) ∧
    ([[("id", PyVal.vint 1)]] : List Pormo).length =
      ([[PyVal.vint 1]] : List (List PyVal)).length := by
  have h := danglingFkYieldsNone 0 dbDangling [] "department_id" [] 9 []
    ⟨["id", "name"], [true, false], []⟩ 0 (by decide) rfl rfl rfl
  exact ⟨h.1, h.2 1 dbDangling "p" [[.vint 1]] ["id"] false
    [[("id", .vint 1)]] rfl⟩

/-- Claim C8: foreign-key resolution triggers exactly when lookup is
enabled, the name ends in `_id` and is longer than 3 characters.  A
non-triggering column (in particular `id`, `_id`, or any name not ending
in `_id`) is assigned its raw value unchanged, and a triggering column is
resolved through the nested query on the name's prefix. -/
theorem fkTriggerCondition (q : String → Int → Except PyErr (List Pormo))
    (obj : Pormo) (ns : List String) (v : PyVal) (vs : List PyVal)
    (fk : Bool) (name : String) :
    (isFkCol fk name = false →
      ormRowAux q obj (name :: ns) (v :: vs) fk =
        ormRowAux q (setAttr obj name v) ns vs fk) ∧
    isFkCol fk "id" = false ∧
    isFkCol fk "_id" = false ∧
    (name.takeRight 3 ≠ "_id" → isFkCol fk name = false) ∧
    (¬ name.length > 3 → isFkCol fk name = false) ∧
    (fk = false → isFkCol fk name = false) ∧
    (∀ k : Int, isFkCol fk name = true →
      ormRowAux q obj (name :: ns) (.vint k :: vs) fk =
        match q (name.dropRight 3) k with
        | .error e => .error e
        | .ok [] => ormRowAux q (setAttr obj name .vnone) ns vs fk
        | .ok (x :: _) => ormRowAux q (setAttr obj name (.vrec x)) ns vs fk) := by
  refine ⟨?_, ?_, ?_, ?_, ?_, ?_, ?_⟩
  · intro h; simp [ormRowAux, h]
  · cases fk <;> decide
  · cases fk <;> decide
  · intro h; simp [isFkCol, beq_eq_false_iff_ne.mpr h]
  · intro h; simp [isFkCol, decide_eq_false h]
  · intro h; simp [isFkCol, h]
  · intro k h; simp [ormRowAux, h, pyToIntFmt]

/-- Witness for `fkTriggerCondition` at concrete inputs: a plain column
`x` passes its raw value through; `id` and `_id` never trigger; a
triggering `department_id` with an empty nested result resolves to
`None`. -/
theorem fkTriggerConditionWitness :
    (ormRowAux (fun _ _ => .ok []) [] ["x"] [.vstr "a"] true =
      ormRowAux (fun _ _ => .ok []) [("x", PyVal.vstr "a")] [] [] true) ∧
    isFkCol true "id" = false ∧
    isFkCol true "_id" = false ∧
    (ormRowAux (fun _ _ => .ok []) [] ["department_id"] [.vint 4] true =
      ormRowAux (fun _ _ => .ok []) [("department_id", PyVal.vnone)] [] [] true) := by
  have h1 := fkTriggerCondition (fun _ _ => .ok []) [] [] (.vstr "a") [] true "x"
  have h2 := fkTriggerCondition (fun _ _ => .ok []) [] [] (.vint 4) [] true
    "department_id"
  refine ⟨h1.1 (by decide), h1.2.1, h1.2.2.1, ?_⟩
  have h3 := h2.2.2.2.2.2.2 4 (by decide)
  exact h3

/-- Claim C10: a `NULL` value in a foreign-key column raises `TypeError`
when the nested query is built, because `'id = %i' % None` is a `%i`
format applied to `None` — the null marker outcome is reserved for
non-null identifiers that match no row. -/
theorem nullFkRaisesTypeError (fuel : Nat) (db : DB) (obj : Pormo)
    (name : String) (ns : List String) (vs : List PyVal)
    (h : isFkCol true name = true) :
    ormRowF fuel db obj (name :: ns) (.vnone :: vs) true =
      .error .typeError := by
  simp [ormRowF, ormRowAux, h, pyToIntFmt]

/-- Witness for `nullFkRaisesTypeError`. -/
theorem nullFkRaisesTypeErrorWitness :
    ormRowF 1 [] [] ["department_id"] [.vnone] true = .error .typeError :=
  nullFkRaisesTypeError 1 [] [] "department_id" [] [] (by decide)

/-! ## Termination under an acyclic foreign-key graph (C9) -/

/-- If every nested query the row loop can issue stays within fuel, so
does the row loop itself. -/
theorem ormRowAux_no_fuel (q : String → Int → Except PyErr (List Pormo))
    (fk : Bool) :
    ∀ (names : List String) (row : List PyVal) (obj : Pormo),
      (∀ n ∈ names, isFkCol fk n = true →
        ∀ k, q (n.dropRight 3) k ≠ .error .outOfFuel) →
      ormRowAux q obj names row fk ≠ .error .outOfFuel := by
  intro names
  induction names with
  | nil => intro row obj _; simp [ormRowAux]
  | cons n ns ih =>
    intro row obj hq
    cases row with
    | nil => simp [ormRowAux]
    | cons v vs =>
      by_cases hfk : isFkCol fk n = true
      · cases v with
        | vint k =>
          simp only [ormRowAux, hfk, if_true, pyToIntFmt]
          cases hq2 : q (n.dropRight 3) k with
          | error e =>
            have hne := hq n (by simp) hfk k
            rw [hq2] at hne
            simpa using hne
          | ok l =>
            cases l with
            | nil =>
              simp only []
              exact ih vs (setAttr obj n .vnone)
                (fun m hm hfkm k2 => hq m (by simp [hm]) hfkm k2)
            | cons x xs =>
              simp only []
              exact ih vs (setAttr obj n (.vrec x))
                (fun m hm hfkm k2 => hq m (by simp [hm]) hfkm k2)
        | vstr s => simp [ormRowAux, hfk, pyToIntFmt]
        | vnone => simp [ormRowAux, hfk, pyToIntFmt]
        | vrec r => simp [ormRowAux, hfk, pyToIntFmt]
      · rw [Bool.not_eq_true] at hfk
        simp only [ormRowAux, hfk, Bool.false_eq_true, if_false]
        exact ih vs (setAttr obj n v)
          (fun m hm hfkm k2 => hq m (by simp [hm]) hfkm k2)

/-- Lift `ormRowAux_no_fuel` to the whole row loop. -/
theorem ormAux_no_fuel (q : String → Int → Except PyErr (List Pormo))
    (fk : Bool) (names : List String)
    (hq : ∀ n ∈ names, isFkCol fk n = true →
      ∀ k, q (n.dropRight 3) k ≠ .error .outOfFuel) :
    ∀ rows, ormAux q rows names fk ≠ .error .outOfFuel := by
  intro rows
  induction rows with
  | nil => simp [ormAux]
  | cons r rs ih =>
    cases h1 : ormRowAux q [] names r fk with
    | error e =>
      have := ormRowAux_no_fuel q fk names r [] hq
      rw [h1] at this
      simp only [ormAux, h1]
      simpa using this
    | ok o =>
      cases h2 : ormAux q rs names fk with
      | error e =>
        rw [h2] at ih
        simp only [ormAux, h1, h2]
        simpa using ih
      | ok os => simp [ormAux, h1, h2]

/-- Claim C9: if the foreign-key reference graph named by the `<ref>_id`
convention admits a rank function that strictly decreases along every
reference edge (in particular the graph is acyclic: no self-reference, no
cycle), then `query`/`orm` never exhaust any fuel exceeding the rank of
the queried table — the recursion terminates.  Unbounded recursion can
therefore only occur when this precondition is violated. -/
theorem acyclicNoFuelExhaustion (db : DB) (rho : String → Nat)
    (hedge : ∀ p ∈ db, ∀ ref ∈ fkTargets p.2, rho ref < rho p.1) :
    ∀ (fuel : Nat) (T : String) (w : Where) (fk : Bool), rho T < fuel →
      queryF fuel db T w fk ≠ .error .outOfFuel := by
  intro fuel
  induction fuel with
  | zero => intro T w fk h; exact absurd h (Nat.not_lt_zero _)
  | succ f ih =>
    intro T w fk hT
    cases hl : lookupTable db T with
    | none => simp [queryF, execSelect, hl]
    | some t =>
      cases hs : selectRows t w with
      | error e =>
        have he := selectRows_error t w e hs
        subst he
        simp [queryF, execSelect, hl, hs]
      | ok rows =>
        simp only [queryF, execSelect, hl, hs]
        apply ormAux_no_fuel
        intro n hn hfk k
        have h0 := hfk
        simp only [isFkCol, Bool.and_eq_true] at h0
        obtain ⟨⟨hfkt, _⟩, _⟩ := h0
        subst hfkt
        have hmem : n.dropRight 3 ∈ fkTargets t :=
          List.mem_map.mpr ⟨n, List.mem_filter.mpr ⟨hn, hfk⟩, rfl⟩
        have hrho : rho (n.dropRight 3) < rho T :=
          hedge (T, t) (lookupTable_mem db T t hl) (n.dropRight 3) hmem
        exact ih (n.dropRight 3) (.idEq k) true (by omega)

/-- Witness for `acyclicNoFuelExhaustion`: the people/department database
is acyclic (rank 1 for `people`, 0 otherwise), so fuel 2 suffices. -/
theorem acyclicNoFuelExhaustionWitness :
    queryF 2 dbPeople "people" .all true ≠ .error .outOfFuel :=
  acyclicNoFuelExhaustion dbPeople (fun s => if s = "people" then 1 else 0)
    (by decide) 2 "people" .all true (by decide)

/-! ## Round trip of an unmodified record (C1) -/

/-- Assigning a fresh attribute appends it. -/
theorem setAttr_append :
    ∀ (obj : Pormo) (n : String) (v : PyVal), getAttr obj n = none →
      setAttr obj n v = obj ++ [(n, v)] := by
  intro obj
  induction obj with
  | nil => intro n v _; rfl
  | cons p rest ih =>
    intro n v h
    obtain ⟨a, w⟩ := p
    rw [getAttr] at h
    by_cases he : n = a
    · rw [if_pos he] at h; cases h
    · rw [if_neg he] at h
      rw [setAttr, if_neg he, ih n v h]
      simp

/-- An absent attribute stays absent after appending a different one. -/
theorem getAttr_append_none :
    ∀ (obj : Pormo) (m n : String) (v : PyVal),
      getAttr obj m = none → m ≠ n → getAttr (obj ++ [(n, v)]) m = none := by
  intro obj
  induction obj with
  | nil => intro m n v _ hne; simp [getAttr, hne]
  | cons p rest ih =>
    intro m n v h hne
    obtain ⟨a, w⟩ := p
    rw [getAttr] at h
    by_cases he : m = a
    · rw [if_pos he] at h; cases h
    · rw [if_neg he] at h
      simpa [getAttr, he] using ih m n v h hne

/-- Mapping one row: a column that does not trigger foreign-key
resolution is paired with its raw cell value, and a triggering column
with the first record returned by its nested query, as dictated by the
pointwise resolution hypotheses relating the raw cells `row` to the
resolved values `rvals`. -/
theorem ormRowAux_resolved (q : String → Int → Except PyErr (List Pormo)) :
    ∀ (names : List String) (row rvals : List PyVal) (obj : Pormo) (fk : Bool),
      names.Nodup →
      (∀ n ∈ names, getAttr obj n = none) →
      row.length = names.length →
      rvals.length = names.length →
      (∀ (p : Nat) (n : String), names[p]? = some n → isFkCol fk n = false →
        rvals[p]? = row[p]?) →
      (∀ (p : Nat) (n : String), names[p]? = some n → isFkCol fk n = true →
        ∃ (k : Int) (x : Pormo) (l : List Pormo),
          row[p]? = some (PyVal.vint k) ∧
          q (n.dropRight 3) k = .ok (x :: l) ∧
          rvals[p]? = some (PyVal.vrec x)) →
      ormRowAux q obj names row fk = .ok (obj ++ names.zip rvals) := by
  intro names
  induction names with
  | nil => intro row rvals obj fk _ _ _ _ _ _; simp [ormRowAux]
  | cons n ns ih =>
    intro row rvals obj fk hnd hobj hlen hrlen hraw hres
    cases row with
    | nil => simp at hlen
    | cons v vs =>
      cases rvals with
      | nil => simp at hrlen
      | cons rv rvs =>
        have hih := fun (obj2 : Pormo)
            (hobj2 : ∀ m ∈ ns, getAttr obj2 m = none) =>
          ih vs rvs obj2 fk (List.nodup_cons.mp hnd).2 hobj2
            (by simp at hlen ⊢; omega) (by simp at hrlen ⊢; omega)
            (fun p m hpm hfkm => by
              have h := hraw (p + 1) m (by simpa using hpm) hfkm
              simpa using h)
            (fun p m hpm hfkm => by
              obtain ⟨k2, x2, l2, h1, h2, h3⟩ :=
                hres (p + 1) m (by simpa using hpm) hfkm
              exact ⟨k2, x2, l2, by simpa using h1, h2, by simpa using h3⟩)
        by_cases hfk : isFkCol fk n = true
        · obtain ⟨k, x, l, hv, hq, hrv⟩ := hres 0 n (by simp) hfk
          simp only [List.getElem?_cons_zero, Option.some.injEq] at hv hrv
          subst hv
          subst hrv
          simp only [ormRowAux, hfk, if_true, pyToIntFmt, hq]
          rw [setAttr_append obj n _ (hobj n (by simp))]
          rw [hih (obj ++ [(n, .vrec x)])
            (fun m hm => getAttr_append_none obj m n _ (hobj m (by simp [hm]))
              (fun he => (List.nodup_cons.mp hnd).1 (he ▸ hm)))]
          simp
        · rw [Bool.not_eq_true] at hfk
          have hrv := hraw 0 n (by simp) hfk
          simp only [List.getElem?_cons_zero, Option.some.injEq] at hrv
          rw [hrv]
          simp only [ormRowAux, hfk, Bool.false_eq_true, if_false]
          rw [setAttr_append obj n v (hobj n (by simp))]
          rw [hih (obj ++ [(n, v)])
            (fun m hm => getAttr_append_none obj m n v (hobj m (by simp [hm]))
              (fun he => (List.nodup_cons.mp hnd).1 (he ▸ hm)))]
          simp

/-- Attribute lookup on a columns/row zip reads the cell at the column's
index. -/
theorem getAttr_zip :
    ∀ (cols : List String) (row : List PyVal) (c : String) (j : Nat),
      colIdx cols c = some j → j < row.length →
      getAttr (cols.zip row) c = row[j]? := by
  intro cols
  induction cols with
  | nil => intro row c j h _; cases h
  | cons c0 cs ih =>
    intro row c j h hlt
    cases row with
    | nil => simp at hlt
    | cons v vs =>
      rw [colIdx] at h
      by_cases he : c = c0
      · rw [if_pos he] at h
        cases h
        simp [getAttr, he]
      · rw [if_neg he] at h
        cases hc : colIdx cs c with
        | none => rw [hc] at h; cases h
        | some j0 =>
          rw [hc] at h
          simp at h
          subst h
          simp only [List.zip_cons_cons, getAttr, if_neg he,
            List.getElem?_cons_succ]
          exact ih vs c j0 hc (by simp at hlt; omega)

/-- A found column index is within the column list. -/
theorem colIdx_lt :
    ∀ (cols : List String) (c : String) (j : Nat),
      colIdx cols c = some j → j < cols.length := by
  intro cols
  induction cols with
  | nil => intro c j h; cases h
  | cons c0 cs ih =>
    intro c j h
    rw [colIdx] at h
    by_cases he : c = c0
    · rw [if_pos he] at h; cases h; simp
    · rw [if_neg he] at h
      cases hc : colIdx cs c with
      | none => rw [hc] at h; cases h
      | some j0 =>
        rw [hc] at h; simp at h; subst h
        have := ih c j0 hc
        simp; omega

/-- Every member column has an index. -/
theorem colIdx_of_mem :
    ∀ (cols : List String) (c : String), c ∈ cols →
      ∃ j, colIdx cols c = some j := by
  intro cols
  induction cols with
  | nil => intro c h; cases h
  | cons c0 cs ih =>
    intro c h
    by_cases he : c = c0
    · exact ⟨0, by rw [colIdx, if_pos he]⟩
    · have hcs : c ∈ cs := by
        rcases List.mem_cons.mp h with h1 | h1
        · exact absurd h1 he
        · exact h1
      obtain ⟨j0, hj0⟩ := ih c hcs
      refine ⟨j0 + 1, ?_⟩
      rw [colIdx, if_neg he, hj0]
      rfl

/-- The found index reads back the column name. -/
theorem colIdx_getElem :
    ∀ (cols : List String) (c : String) (j : Nat),
      colIdx cols c = some j → cols[j]? = some c := by
  intro cols
  induction cols with
  | nil => intro c j h; cases h
  | cons c0 cs ih =>
    intro c j h
    rw [colIdx] at h
    by_cases he : c = c0
    · rw [if_pos he] at h; cases h; simp [he]
    · rw [if_neg he] at h
      cases hc : colIdx cs c with
      | none => rw [hc] at h; cases h
      | some j0 =>
        rw [hc] at h; simp at h; subst h
        simpa using ih c j0 hc

/-- Pointwise image of `mapE` over a mapped list. -/
theorem mapE_map (f : α → Except PyErr γ) (g : β → α) (h : β → γ) :
    ∀ l : List β, (∀ x ∈ l, f (g x) = .ok (h x)) →
      mapE f (l.map g) = .ok (l.map h) := by
  intro l
  induction l with
  | nil => intro _; simp [mapE]
  | cons x xs ih =>
    intro hp
    simp only [List.map_cons, mapE, hp x (by simp),
      ih (fun y hy => hp y (by simp [hy]))]

/-- Writing back the value a cell already holds changes nothing. -/
theorem set_self {α : Type} :
    ∀ (l : List α) (j : Nat) (a : α), l[j]? = some a → l.set j a = l := by
  intro l
  induction l with
  | nil => intro j a h; simp at h
  | cons x xs ih =>
    intro j a h
    cases j with
    | zero => simp at h; subst h; simp
    | succ j2 =>
      simp at h
      simp [List.set, ih j2 a h]

/-- An UPDATE whose every assignment carries a quote-free value and
stores back the value the row already holds leaves the row unchanged. -/
theorem applyAssigns_ok_id (cols : List String) (ints : List Bool) :
    ∀ (assigns : List (String × PyVal)) (r : List PyVal),
      (∀ p ∈ assigns, pvHasQuote p.2 = false ∧
        ∃ jf, colIdx cols p.1 = some jf ∧
          r[jf]? = some (storeVal (ints.getD jf false) p.2)) →
      applyAssigns cols ints assigns r = .ok r := by
  intro assigns
  induction assigns with
  | nil => intro r _; rfl
  | cons p rest ih =>
    intro r h
    obtain ⟨hq, jf, hjf, hr⟩ := h p (by simp)
    obtain ⟨f, v⟩ := p
    simp only [applyAssigns, hq, Bool.false_eq_true, if_false, hjf]
    rw [set_self r jf _ hr]
    exact ih r (fun p2 hp2 => h p2 (by simp [hp2]))

/-- Re-installing the table that was looked up is the identity. -/
theorem replaceTable_self :
    ∀ (db : DB) (name : String) (t : Table),
      lookupTable db name = some t → replaceTable db name t = db := by
  intro db
  induction db with
  | nil => intro name t h; cases h
  | cons p rest ih =>
    intro name t h
    obtain ⟨n0, t0⟩ := p
    rw [lookupTable] at h
    by_cases he : name = n0
    · rw [if_pos he] at h; cases h; rw [replaceTable, if_pos he]
    · rw [if_neg he] at h
      rw [replaceTable, if_neg he, ih name t h]

/-- The fields `save` collects are attribute names of the instance. -/
theorem saveFields_subset (inst : Pormo) :
    ∀ f ∈ saveFields inst, f ∈ inst.map Prod.fst := by
  intro f hf
  rw [saveFields] at hf
  have h1 := List.mem_of_mem_filter hf
  have h2 := (List.perm_insertionSort dirLe _).mem_iff.mp h1
  exact List.mem_dedup.mp h2

/-- Is the cell value consistent with its column's affinity and safe to
re-interpolate: an integer in an integer-affinity column, or a string
without an embedded quote character in a text column?  (Rules out `NULL`
cells, affinity mismatches, and quote-bearing strings — none of which
the unescaped quoted-literal UPDATE round-trips.) -/
def valAffOk : Option PyVal → Bool → Bool
  | some (.vint _), b => b
  | some (.vstr s), b => !b && !hasQuoteStr s
  | _, _ => false

/-- The database of the C1 counterexample: `t(id, x)` with one row whose
`x` cell is `NULL`. -/
def cdbNull : DB := [("t", ⟨["id", "x"], [true, false], [[.vint 1, .vnone]]⟩)]

/-- What `cdbNull` becomes after the round trip: the `NULL` turned into
the text `None`. -/
def cdbNullAfter : DB :=
  [("t", ⟨["id", "x"], [true, false], [[.vint 1, .vstr "None"]]⟩)]

/-- Claim C1 counterexample: querying the row with id 1 and saving the
returned Record unchanged does NOT leave the row's column values
unchanged — the `NULL` in column `x` is rewritten to the literal text
`None`, because `save` renders every value with `'%s' % value` inside
quotes and `'%s' % None` is the string `None`. -/
theorem saveRoundtripNullChanged :
    queryF 1 cdbNull "t" (.idEq 1) true =
      .ok [[("id", .vint 1), ("x", .vnone)]] ∧
    save cdbNull "t" [("id", .vint 1), ("x", .vnone)] =
      .ok (cdbNullAfter, .updated) ∧
    lookupTable cdbNull "t" =
      some ⟨["id", "x"], [true, false], [[.vint 1, .vnone]]⟩ ∧
    lookupTable cdbNullAfter "t" =
      some ⟨["id", "x"], [true, false], [[.vint 1, .vstr "None"]]⟩ ∧
    PyVal.vstr "None" ≠ PyVal.vnone :=
  ⟨rfl, rfl, rfl, rfl, fun h => PyVal.noConfusion h⟩

/-- Claim C1 as amended: consider a table whose filtered row for `id = i`
(`i > 0`) is unique and whose cells are non-null primitives consistent
with their column's affinity — integers in integer columns, quote-free
strings in text columns (a quote in the unescaped quoted literal corrupts
the generated statement) — and suppose every foreign-key-convention
column holds a reference that resolves: its nested query returns at least
one record whose `id` attribute carries the reference.  Then querying
`id = i` returns exactly the resolved record, and saving that record
unchanged leaves the database exactly as it was: the update writes every
column back to the value it already held, nested records re-collapsed to
their foreign-key ids. -/
theorem saveRoundtripUnchanged (db : DB) (T : String) (t : Table) (i : Int)
    (j : Nat) (row rvals : List PyVal) (fuel : Nat)
    (ht : lookupTable db T = some t)
    (hnd : t.cols.Nodup)
    (hj : colIdx t.cols "id" = some j)
    (hlen : row.length = t.cols.length)
    (hrlen : rvals.length = t.cols.length)
    (hfilter : t.rows.filter (fun r => rowMatchId r j i) = [row])
    (hvals : ∀ k, k < row.length →
      valAffOk row[k]? (t.ints.getD k false) = true)
    (hraw : ∀ (p : Nat) (n : String), t.cols[p]? = some n →
      isFkCol true n = false → rvals[p]? = row[p]?)
    (hres : ∀ (p : Nat) (n : String), t.cols[p]? = some n →
      isFkCol true n = true →
      ∃ (k : Int) (x : Pormo) (l : List Pormo),
        row[p]? = some (PyVal.vint k) ∧
        queryF fuel db (n.dropRight 3) (.idEq k) true = .ok (x :: l) ∧
        rvals[p]? = some (PyVal.vrec x) ∧ getAttr x "id" = some (PyVal.vint k))
    (hi : 0 < i) :
    queryF (fuel + 1) db T (.idEq i) true = .ok [t.cols.zip rvals] ∧
    save db T (t.cols.zip rvals) = .ok (db, .updated) := by
  have hrowmap : ormRowAux (fun tb k => queryF fuel db tb (.idEq k) true)
      [] t.cols row true = .ok (t.cols.zip rvals) := by
    have h := ormRowAux_resolved
      (fun tb k => queryF fuel db tb (.idEq k) true)
      t.cols row rvals [] true hnd (fun n _ => rfl) hlen hrlen hraw
      (fun p n hpn hfk => by
        obtain ⟨k, x, l, h1, h2, h3, _⟩ := hres p n hpn hfk
        exact ⟨k, x, l, h1, h2, h3⟩)
    simpa using h
  have hquery : queryF (fuel + 1) db T (.idEq i) true =
      .ok [t.cols.zip rvals] := by
    simp only [queryF, execSelect, ht, selectRows, hj, hfilter]
    simp [ormAux, hrowmap]
  have hjrow : j < row.length := by
    rw [hlen]; exact colIdx_lt t.cols "id" j hj
  have hjrv : j < rvals.length := by
    rw [hrlen]; exact colIdx_lt t.cols "id" j hj
  have hrowmemf : row ∈ t.rows.filter (fun r => rowMatchId r j i) := by
    rw [hfilter]; simp
  have hrowmem : row ∈ t.rows := List.mem_of_mem_filter hrowmemf
  have hrm : rowMatchId row j i = true := by
    have h := List.of_mem_filter hrowmemf
    simpa using h
  have hidcell : row[j]? = some (.vint i) := by
    have hrm2 := hrm
    simp only [rowMatchId] at hrm2
    cases hjv : row[j]? with
    | none => rw [hjv] at hrm2; cases hrm2
    | some v =>
      rw [hjv] at hrm2
      cases v with
      | vint m =>
        simp only [pvEqInt] at hrm2
        have hmi : m = i := eq_of_beq hrm2
        rw [hmi]
      | vstr s => simp [pvEqInt] at hrm2
      | vnone => simp [pvEqInt] at hrm2
      | vrec r2 => simp [pvEqInt] at hrm2
  have hidrv : rvals[j]? = some (.vint i) := by
    rw [hraw j "id" (colIdx_getElem t.cols "id" j hj) (by decide), hidcell]
  have hgid : getAttr (t.cols.zip rvals) "id" = some (.vint i) := by
    rw [getAttr_zip t.cols rvals "id" j hj hjrv, hidrv]
  have hexists : saveExists db T (.vint i) = .ok true := by
    have hne : (i == 0) = false := beq_eq_false_iff_ne.mpr (by omega)
    simp only [saveExists, pyEq0, hne, Bool.false_eq_true, if_false,
      pyToIntFmt, execSelect, ht, selectRows, hj, hfilter]
    rfl
  have hkey : ∀ f ∈ saveFields (t.cols.zip rvals), ∃ jf rv w,
      colIdx t.cols f = some jf ∧
      getAttr (t.cols.zip rvals) f = some rv ∧
      row[jf]? = some w ∧
      flattenVal rv = .ok w ∧
      storeVal (t.ints.getD jf false) w = w ∧
      pvHasQuote w = false := by
    intro f hf
    have hfc : f ∈ t.cols := by
      have h1 := saveFields_subset (t.cols.zip rvals) f hf
      rwa [List.map_fst_zip t.cols rvals (by omega)] at h1
    obtain ⟨jf, hjf⟩ := colIdx_of_mem t.cols f hfc
    have hcj : t.cols[jf]? = some f := colIdx_getElem t.cols f jf hjf
    have hjflt : jf < row.length := by
      rw [hlen]; exact colIdx_lt t.cols f jf hjf
    have hjfrv : jf < rvals.length := by
      rw [hrlen]; exact colIdx_lt t.cols f jf hjf
    have hga := getAttr_zip t.cols rvals f jf hjf hjfrv
    have hva := hvals jf hjflt
    by_cases hfk : isFkCol true f = true
    · obtain ⟨k, x, l, hvk, hq2, hrv, hxid⟩ := hres jf f hcj hfk
      rw [hrv] at hga
      refine ⟨jf, .vrec x, .vint k, hjf, hga, hvk, ?_, ?_, rfl⟩
      · simp [flattenVal, hxid]
      · rw [hvk] at hva
        simp only [valAffOk] at hva
        rw [hva]
        rfl
    · rw [Bool.not_eq_true] at hfk
      have hrv := hraw jf f hcj hfk
      rw [hrv] at hga
      cases hjv : row[jf]? with
      | none => rw [hjv] at hva; simp [valAffOk] at hva
      | some v =>
        rw [hjv] at hva
        rw [hjv] at hga
        cases v with
        | vint n =>
          simp only [valAffOk] at hva
          refine ⟨jf, .vint n, .vint n, hjf, hga, hjv, rfl, ?_, rfl⟩
          rw [hva]
          rfl
        | vstr s =>
          simp only [valAffOk, Bool.and_eq_true, Bool.not_eq_true'] at hva
          refine ⟨jf, .vstr s, .vstr s, hjf, hga, hjv, rfl, ?_, ?_⟩
          · rw [hva.1]
            rfl
          · simpa [pvHasQuote] using hva.2
        | vnone => simp [valAffOk] at hva
        | vrec r2 => simp [valAffOk] at hva
  have hflat : flattenVals ((saveFields (t.cols.zip rvals)).map
      (fun f => (getAttr (t.cols.zip rvals) f).getD .vnone)) =
      .ok ((saveFields (t.cols.zip rvals)).map
        (fun f => match colIdx t.cols f with
          | some jf => (row[jf]?).getD PyVal.vnone
          | none => PyVal.vnone)) := by
    rw [flattenVals]
    apply mapE_map
    intro f hf
    obtain ⟨jf, rv, w, hjf, hga, hw, hfl, hst, hq2⟩ := hkey f hf
    simp only [hga, Option.getD_some, hjf, hw]
    exact hfl
  have hall : ∀ r ∈ t.rows,
      (if rowMatchId r j i then
        applyAssigns t.cols t.ints ((saveFields (t.cols.zip rvals)).zip
          ((saveFields (t.cols.zip rvals)).map
            (fun f => match colIdx t.cols f with
              | some jf => (row[jf]?).getD PyVal.vnone
              | none => PyVal.vnone))) r
      else .ok r) = .ok r := by
    intro r hr
    cases hm : rowMatchId r j i with
    | false => simp [hm]
    | true =>
      have hreq : r = row := by
        have hmem2 : r ∈ t.rows.filter (fun r2 => rowMatchId r2 j i) :=
          List.mem_filter.mpr ⟨hr, hm⟩
        rw [hfilter] at hmem2
        simpa using hmem2
      simp only [hm, if_true]
      rw [hreq]
      apply applyAssigns_ok_id
      intro p hp
      have hzip : (saveFields (t.cols.zip rvals)).zip
          ((saveFields (t.cols.zip rvals)).map
            (fun f => match colIdx t.cols f with
              | some jf => (row[jf]?).getD PyVal.vnone
              | none => PyVal.vnone)) =
          (saveFields (t.cols.zip rvals)).map
            (fun f => (f, match colIdx t.cols f with
              | some jf => (row[jf]?).getD PyVal.vnone
              | none => PyVal.vnone)) := by
        have h := List.zip_map' id
          (fun f => match colIdx t.cols f with
            | some jf => (row[jf]?).getD PyVal.vnone
            | none => PyVal.vnone)
          (saveFields (t.cols.zip rvals))
        simpa using h
      rw [hzip] at hp
      obtain ⟨f, hf, hfp⟩ := List.mem_map.mp hp
      obtain ⟨jf, rv, w, hjf, hga, hw, hfl, hst, hq2⟩ := hkey f hf
      subst hfp
      refine ⟨?_, jf, hjf, ?_⟩
      · simp only [hjf, hw, Option.getD_some]
        exact hq2
      · simp only [hjf, hw, Option.getD_some, hst]
  have hmap : mapE (fun r => if rowMatchId r j i then
      applyAssigns t.cols t.ints ((saveFields (t.cols.zip rvals)).zip
        ((saveFields (t.cols.zip rvals)).map
          (fun f => match colIdx t.cols f with
            | some jf => (row[jf]?).getD PyVal.vnone
            | none => PyVal.vnone))) r
    else .ok r) t.rows = .ok t.rows := mapE_ok_self _ t.rows hall
  have heta : ({ t with rows := t.rows } : Table) = t := rfl
  refine ⟨hquery, ?_⟩
  simp only [save, hgid, hexists, hflat, Bool.false_eq_true, if_true,
    pyToIntFmt, execUpdate, ht, hj, hmap, heta, replaceTable_self db T t ht]

/-- Witness for `saveRoundtripUnchanged`: the people/department scenario
round-trips — the resolved department record is re-collapsed to its
foreign-key id and the database is left unchanged. -/
theorem saveRoundtripUnchangedWitness :
    queryF 2 dbPeople "people" (.idEq 5) true = .ok [recAnn] ∧
    save dbPeople "people" recAnn = .ok (dbPeople, .updated) := by
  have hraw : ∀ (p : Nat) (n : String),
      (["id", "name", "department_id"] : List String)[p]? = some n →
      isFkCol true n = false →
      ([PyVal.vint 5, PyVal.vstr "Ann", PyVal.vrec depEng] :
        List PyVal)[p]? =
      ([PyVal.vint 5, PyVal.vstr "Ann", PyVal.vint 1] : List PyVal)[p]? := by
    intro p n hpn hfk
    rcases p with _ | _ | _ | p3
    · rfl
    · rfl
    · simp at hpn
      subst hpn
      exact absurd hfk (by decide)
    · simp at hpn
  have hres : ∀ (p : Nat) (n : String),
      (["id", "name", "department_id"] : List String)[p]? = some n →
      isFkCol true n = true →
      ∃ (k : Int) (x : Pormo) (l : List Pormo),
        ([PyVal.vint 5, PyVal.vstr "Ann", PyVal.vint 1] :
          List PyVal)[p]? = some (PyVal.vint k) ∧
        queryF 1 dbPeople (n.dropRight 3) (.idEq k) true = .ok (x :: l) ∧
        ([PyVal.vint 5, PyVal.vstr "Ann", PyVal.vrec depEng] :
          List PyVal)[p]? = some (PyVal.vrec x) ∧
        getAttr x "id" = some (PyVal.vint k) := by
    intro p n hpn hfk
    rcases p with _ | _ | _ | p3
    · simp at hpn
      subst hpn
      exact absurd hfk (by decide)
    · simp at hpn
      subst hpn
      exact absurd hfk (by decide)
    · simp at hpn
      subst hpn
      exact ⟨1, depEng, [], rfl, rfl, rfl, rfl⟩
    · simp at hpn
  have h := saveRoundtripUnchanged dbPeople "people"
    ⟨["id", "name", "department_id"], [true, false, true],
      [[.vint 5, .vstr "Ann", .vint 1]]⟩ 5 0
    [.vint 5, .vstr "Ann", .vint 1]
    [.vint 5, .vstr "Ann", .vrec depEng] 1
    rfl (by decide) rfl rfl rfl rfl (by decide) hraw hres (by decide)
  exact h
